import Mathlib

/-!
A verification development for the backstage task-worker core
(`TaskWorker` in `src/unnamed/part_000`) and the simple permission handler
(`src/plugins/permission-handler-simple/src/SimplePermissionHandler.ts`).

The TypeScript code is shallowly embedded: the knex-backed task table
becomes an explicit list of rows threaded through the operations,
timestamps become integers, promise-returning methods become pure
functions returning their results (plus the log lines they emit, the
store they leave behind, and the number of work-function invocations
they perform), and thrown errors become `Except` values.

A few collaborators of `TaskWorker` are imported from files that are not
part of the given sources (`./CancelToken`, `./types`, `./util`); their
definitions below are modelled from the specification and are marked as
such in their doc comments.
-/

/-- Modelled from the spec: the Settings Schema value (the file
`src/.../types` that declares `TaskSettingsV1` and `taskSettingsV1Schema`
is not among the given sources).  Per the spec it is a versioned (`V1`)
object with an optional `initialDelayDuration`; ISO-8601 durations are
modelled as already-parsed natural numbers of milliseconds. -/
structure TaskSettingsV1 where
  version : Nat
  initialDelayDuration : Option Nat
deriving DecidableEq, Repr

/-- Modelled from the spec: `taskSettingsV1Schema` validation of an
in-memory settings value.  The schema accepts exactly version-1 values;
an unknown/incompatible version is rejected. -/
def validateSettings (s : TaskSettingsV1) : Bool :=
  s.version == 1

/-- Modelled from the spec: a serialized settings payload as stored in
`settings_json`.  From the store's point of view the payload is opaque:
it is either the wire form of a `V1` settings object
(`JSON.stringify(settings)`) or arbitrary other data that some newer or
unrelated writer put there. -/
inductive SettingsJson
  | v1 (s : TaskSettingsV1)
  | malformed (raw : String)
deriving DecidableEq, Repr

/-- `JSON.stringify` applied to a settings value. -/
def encodeSettings (s : TaskSettingsV1) : SettingsJson :=
  .v1 s

/-- Modelled from the spec: `taskSettingsV1Schema.parse(JSON.parse(j))`
as a total function, `none` meaning the parse or the schema validation
threw.  A malformed payload or a payload of an unknown version fails. -/
def parseSettings : SettingsJson → Option TaskSettingsV1
  | .v1 s => if validateSettings s then some s else none
  | .malformed _ => none

/-- One row of the `backstage_backend_common__tasks` table
(`DbTasksRow` in the source). -/
structure DbTasksRow where
  id : String
  settings_json : SettingsJson
  next_run_start_at : Int
  current_run_ticket : Option String
deriving DecidableEq, Repr

/-- The shared tasks table. -/
abbrev TaskStore := List DbTasksRow

/-- Look up the row for a task id (the table's primary key). -/
def findRow (store : TaskStore) (taskId : String) : Option DbTasksRow :=
  store.find? (fun r => r.id == taskId)

/-- Modelled from the spec: `nowPlus(duration, knex)` from `./util`
(not among the given sources): `now + initialDelayDuration`, or `now`
when the duration is absent. -/
def nowPlus (d : Option Nat) (now : Int) : Int :=
  now + (d.getD 0 : Nat)

/-- Modelled from the spec: the Cancel Signal (`./CancelToken` is not
among the given sources).  In-memory one-shot flag; the wait facet is
modelled separately by `sleepElapsed`. -/
structure CancelToken where
  isCancelled : Bool
deriving DecidableEq, Repr

/-- `CancelToken.create()`: a fresh, un-cancelled signal. -/
def CancelToken.create : CancelToken :=
  { isCancelled := false }

/-- `cancel()`: sets the cancelled flag; firing is idempotent. -/
def CancelToken.cancel (_t : CancelToken) : CancelToken :=
  { isCancelled := true }

/-- `TaskWorker.stop()`: triggers the worker's cancel token. -/
def stop (t : CancelToken) : CancelToken :=
  t.cancel

/-- `WORK_CHECK_FREQUENCY`: the fixed 5 second poll interval, in
milliseconds. -/
def WORK_CHECK_FREQUENCY_MS : Nat := 5000

/-- `TaskWorker.sleep(duration)`: a race between a `setTimeout` for the
given duration and the cancel token's promise.  The result is the
elapsed time at which the sleep resolves: the timer's expiry, or the
cancellation instant (`cancelAt` milliseconds into the sleep, when the
token fires during it), whichever comes first. -/
def sleepElapsed (durationMs : Nat) (cancelAt : Option Nat) : Nat :=
  match cancelAt with
  | none => durationMs
  | some c => min durationMs c

/-- Severity of a line emitted through the worker's logger. -/
inductive LogLevel
  | debug
  | info
  | warn
deriving DecidableEq, Repr

/-- Result of `TaskWorker.findReadyTask`. -/
inductive FindResult
  | notReadyYet
  | abort
  | ready (settings : TaskSettingsV1)
deriving DecidableEq, Repr

/-- The rows produced by the query in `findReadyTask`:
`where id = taskId`, `where next_run_start_at < now()`,
`whereNull current_run_ticket`. -/
def eligibleRows (taskId : String) (store : TaskStore) (now : Int) :
    List DbTasksRow :=
  store.filter fun r =>
    r.id == taskId && decide (r.next_run_start_at < now) &&
      r.current_run_ticket.isNone

/-- `TaskWorker.findReadyTask`.  `readFails` models the store read
raising (connectivity, timeout): the error is caught, a warning is
logged, and the result is `not ready yet`.  Otherwise, zero eligible
rows give `not ready yet`; a row whose `settings_json` fails to parse
or validate gives `abort` with an informational log; a row that parses
gives `ready`.  Returned alongside the result are the levels of the log
lines emitted. -/
def findReadyTask (taskId : String) (store : TaskStore) (now : Int)
    (readFails : Bool) : FindResult × List LogLevel :=
  if readFails then
    (.notReadyYet, [.warn])
  else
    match (eligibleRows taskId store now).head? with
    | none => (.notReadyYet, [])
    | some r =>
      match parseSettings r.settings_json with
      | none => (.abort, [.info])
      | some s => (.ready s, [])

/-- Result type of `TaskWorker.runOnce` as declared in the source:
note that it declares a `failed` variant. -/
inductive RunResult
  | notReadyYet
  | abort
  | failed
  | completed
deriving DecidableEq, Repr

/-- Everything observable about one poll-and-maybe-run step: its
result, the store it leaves behind, how many times it invoked the
worker's work function `fn`, and the log lines it emitted. -/
structure StepOut where
  result : RunResult
  store : TaskStore
  fnInvocations : Nat
  logs : List LogLevel
deriving DecidableEq, Repr

/-- `TaskWorker.runOnce`, embedded with the store passed explicitly.
The source calls `findReadyTask`, forwards `not ready yet` and `abort`,
and otherwise returns `completed`.  It performs no store write and
never references `this.fn`, which the embedding records as an unchanged
store and zero work-function invocations. -/
def runOnce (taskId : String) (store : TaskStore) (now : Int)
    (readFails : Bool) : StepOut :=
  let f := findReadyTask taskId store now readFails
  match f.1 with
  | .notReadyYet => { result := .notReadyYet, store := store, fnInvocations := 0, logs := f.2 }
  | .abort => { result := .abort, store := store, fnInvocations := 0, logs := f.2 }
  | .ready _ => { result := .completed, store := store, fnInvocations := 0, logs := f.2 }

/-- Observable events of the control loop: beginning a poll step, and
sleeping the poll interval. -/
inductive LoopEvent
  | poll
  | sleep
deriving DecidableEq, Repr

/-- The environment one loop iteration runs in: the store contents at
that poll (other workers may change it between polls), the current
time, and whether the store read raises. -/
structure PollEnv where
  store : TaskStore
  now : Int
  readFails : Bool
deriving DecidableEq, Repr

/-- `TaskWorker.runLoop`, embedded as a fuel-indexed trace of loop
events starting at iteration `i`.  `cancelled i` is the value of
`cancelToken.isCancelled` observed at iteration `i`'s loop-entry check;
`env i` is the environment of iteration `i`'s poll.  Each iteration
first checks cancellation and exits on it; otherwise it polls, exits
immediately on `abort`, and otherwise sleeps before the next iteration.
The loop itself never throws: every failure is a value
(`findReadyTask` catches store errors, `start` attaches the only
handler to the loop's promise and merely logs). -/
def runLoopAux (taskId : String) (env : Nat → PollEnv)
    (cancelled : Nat → Bool) : Nat → Nat → List LoopEvent
  | 0, _ => []
  | fuel + 1, i =>
    if cancelled i then
      []
    else
      let e := env i
      if (runOnce taskId e.store e.now e.readFails).result = .abort then
        [.poll]
      else
        .poll :: .sleep :: runLoopAux taskId env cancelled fuel (i + 1)

/-- `TaskWorker.runLoop` from its first iteration. -/
def runLoop (taskId : String) (env : Nat → PollEnv)
    (cancelled : Nat → Bool) (fuel : Nat) : List LoopEvent :=
  runLoopAux taskId env cancelled fuel 0

/-- Errors `start`/`persistTask` surface to the caller.
Settings that fail the initial `taskSettingsV1Schema.parse` throw
before any store access; a failing upsert is wrapped in
`Failed to persist task`. -/
inductive StartError
  | invalidSettings
  | persistenceFailure
deriving DecidableEq, Repr

/-- The `insert(...).onConflict('id').merge(['settings_json'])` upsert:
if a row with the same id exists, only its `settings_json` is
overwritten; otherwise the new row is inserted. -/
def upsertTask (store : TaskStore) (row : DbTasksRow) : TaskStore :=
  if store.any (fun r => r.id == row.id) then
    store.map fun r =>
      if r.id == row.id then { r with settings_json := row.settings_json } else r
  else
    store ++ [row]

/-- `TaskWorker.persistTask`, embedded with the store passed
explicitly.  It first re-validates the settings (throwing
`invalidSettings` on failure, before any store access), then upserts a
row whose `next_run_start_at` is `nowPlus(initialDelay)` and whose
ticket is the column default `null`; `upsertFails` models the knex
insert throwing, which is wrapped as a `persistenceFailure`. -/
def persistTask (taskId : String) (now : Int) (store : TaskStore)
    (upsertFails : Bool) (settings : TaskSettingsV1) :
    Except StartError TaskStore :=
  if validateSettings settings then
    if upsertFails then
      .error .persistenceFailure
    else
      .ok (upsertTask store
        { id := taskId
          settings_json := encodeSettings settings
          next_run_start_at := nowPlus settings.initialDelayDuration now
          current_run_ticket := none })
  else
    .error .invalidSettings

/-- Everything observable about a `start` call: what the caller sees,
the store afterwards, and whether the control loop was launched. -/
structure StartOut where
  outcome : Except StartError Unit
  store : TaskStore
  loopLaunched : Bool
deriving Repr

/-- `TaskWorker.start(settings)`: awaits `persistTask` (so its errors
propagate to the caller and nothing further runs), then launches
`runLoop` fire-and-forget and returns. -/
def start (taskId : String) (now : Int) (store : TaskStore)
    (upsertFails : Bool) (settings : TaskSettingsV1) : StartOut :=
  match persistTask taskId now store upsertFails settings with
  | .error e => { outcome := .error e, store := store, loopLaunched := false }
  | .ok store2 => { outcome := .ok (), store := store2, loopLaunched := true }

/-- `AuthorizeResult` from `@backstage/permission-common`. -/
inductive AuthorizeResult
  | ALLOW
  | DENY
  | MAYBE
deriving DecidableEq, Repr

/-- The part of a permission relevant to `handle`: its `isRead` flag. -/
structure CatalogPermissionV where
  isRead : Bool
deriving DecidableEq, Repr

/-- An `AuthorizeRequest` as consumed by `handle`. -/
structure AuthorizeRequest where
  permission : CatalogPermissionV
deriving DecidableEq, Repr

/-- A `BackstageIdentity` (only its presence matters to `handle`). -/
structure BackstageIdentity where
  id : String
deriving DecidableEq, Repr

/-- `SimplePermissionHandler.handle`: any caller with an identity is
allowed; anonymous callers are allowed exactly on read permissions and
denied otherwise. -/
def handle (request : AuthorizeRequest) (identity : Option BackstageIdentity) :
    AuthorizeResult :=
  match identity with
  | some _ => .ALLOW
  | none =>
    if request.permission.isRead then .ALLOW else .DENY

/-- A store whose single row is due (past `next_run_start_at`), has a
null ticket, and carries settings that parse. -/
def c1Store : TaskStore :=
  [{ id := "t1"
     settings_json := .v1 { version := 1, initialDelayDuration := some 0 }
     next_run_start_at := -1
     current_run_ticket := none }]

/-- A store whose row for `t1` holds an unparsable payload but is not
yet due (`next_run_start_at` in the future). -/
def c3Store : TaskStore :=
  [{ id := "t1"
     settings_json := .malformed "junk"
     next_run_start_at := 10
     current_run_ticket := none }]

/-! ## Helper lemmas -/

/-- As long as the loop is not cancelled at iteration `i` and has fuel,
iteration `i` begins with a poll. -/
theorem runLoopAux_head (taskId : String) (env : Nat → PollEnv)
    (cancelled : Nat → Bool) (fuel i : Nat) (hc : cancelled i = false) :
    ∃ rest, runLoopAux taskId env cancelled (fuel + 1) i = .poll :: rest := by
  by_cases h :
      (runOnce taskId (env i).store (env i).now (env i).readFails).result = .abort
  · exact ⟨[], by simp [runLoopAux, hc, h]⟩
  · exact ⟨.sleep :: runLoopAux taskId env cancelled fuel (i + 1),
      by simp [runLoopAux, hc, h]⟩

/-- A map whose function fixes every member of the list is the
identity on that list. -/
theorem map_eq_self_of_fixes {α : Type} (f : α → α) (l : List α)
    (h : ∀ x ∈ l, f x = x) : l.map f = l := by
  induction l with
  | nil => rfl
  | cons a t ih =>
    rw [List.map_cons, h a (List.mem_cons_self a t),
      ih fun x hx => h x (List.mem_cons_of_mem a hx)]

/-- The settings-merge branch of the upsert preserves row ids, so the
primary-key lookup commutes with it. -/
theorem findRow_merge (store : TaskStore) (taskId : String)
    (j : SettingsJson) :
    findRow (store.map fun x =>
        if x.id == taskId then { x with settings_json := j } else x) taskId =
      (findRow store taskId).map fun x =>
        if x.id == taskId then { x with settings_json := j } else x := by
  have hcomp : ((fun r : DbTasksRow => r.id == taskId) ∘ fun x =>
      if x.id == taskId then { x with settings_json := j } else x) =
        fun r : DbTasksRow => r.id == taskId := by
    funext x
    by_cases h : (x.id == taskId) = true <;> simp [Function.comp, h]
  unfold findRow
  rw [List.find?_map, hcomp]

/-- When a record with the task's id exists, the upsert performed by
`start` takes the merge branch and only rewrites that record's
`settings_json`. -/
theorem start_store_merge (taskId : String) (now : Int) (store : TaskStore)
    (s : TaskSettingsV1) (hv : validateSettings s = true)
    (hany : (store.any fun x => x.id == taskId) = true) :
    (start taskId now store false s).store =
      store.map fun x =>
        if x.id == taskId then { x with settings_json := encodeSettings s }
        else x := by
  simp [start, persistTask, hv, upsertTask, hany]

/-! ## Claims -/

/-- Claim C9: `runOnce` only ever returns `not ready yet`, `abort` or
`completed`; the `failed` variant declared in its result type is dead. -/
theorem runOnce_never_failed (taskId : String) (store : TaskStore)
    (now : Int) (readFails : Bool) :
    (runOnce taskId store now readFails).result ≠ RunResult.failed := by
  cases h : (findReadyTask taskId store now readFails).1 <;> simp [runOnce, h]

/-- Concrete instance of `runOnce_never_failed`. -/
theorem runOnce_never_failed_witness :
    (runOnce "t1" [] 0 false).result ≠ RunResult.failed :=
  runOnce_never_failed "t1" [] 0 false

/-- Claim C10: `SimplePermissionHandler.handle` allows every request
with a caller identity; without one it allows exactly reads and denies
the rest; it never answers `MAYBE`. -/
theorem handle_allow_identity_read (req : AuthorizeRequest)
    (ident : Option BackstageIdentity) (i : BackstageIdentity) :
    handle req (some i) = .ALLOW ∧
    handle req none = (if req.permission.isRead then .ALLOW else .DENY) ∧
    handle req ident ≠ .MAYBE := by
  refine ⟨rfl, rfl, ?_⟩
  cases ident with
  | none => by_cases h : req.permission.isRead <;> simp [handle, h]
  | some j => simp [handle]

/-- Concrete instance of `handle_allow_identity_read`. -/
theorem handle_allow_identity_read_witness :
    handle ⟨⟨false⟩⟩ (some ⟨"user"⟩) = .ALLOW ∧
    handle ⟨⟨false⟩⟩ none =
      (if (AuthorizeRequest.mk ⟨false⟩).permission.isRead then .ALLOW else .DENY) ∧
    handle ⟨⟨false⟩⟩ none ≠ .MAYBE :=
  handle_allow_identity_read ⟨⟨false⟩⟩ none ⟨"user"⟩

/-- Claim C1 (the code disagrees): on an eligible row with parsable
settings, `runOnce` as written returns `completed` while performing no
store write at all — it never sets `current_run_ticket`, never invokes
the work function, and never recomputes `next_run_start_at` — contrary
to the claimed claim/run/release sequence (which the spec itself notes
is missing from the observed control flow and is to be treated as a
defect). -/
theorem runOnce_eligible_no_claim_no_run :
    (runOnce "t1" c1Store 0 false).result = .completed ∧
    (runOnce "t1" c1Store 0 false).store = c1Store ∧
    (runOnce "t1" c1Store 0 false).fnInvocations = 0 := by
  decide

/-- Claim C5: `stop()` (firing the cancel token) is idempotent; once
cancellation is observed at a loop-entry check no further poll step
ever begins; and a sleep during which cancellation fires resolves at
the cancellation instant rather than waiting out the 5 second poll
interval. -/
theorem stop_idempotent_no_poll_after_cancel (t : CancelToken)
    (taskId : String) (env : Nat → PollEnv) (cancelled : Nat → Bool)
    (fuel i : Nat) (hc : cancelled i = true) (ms : Nat)
    (hms : ms < WORK_CHECK_FREQUENCY_MS) :
    stop (stop t) = stop t ∧
    runLoopAux taskId env cancelled fuel i = [] ∧
    sleepElapsed WORK_CHECK_FREQUENCY_MS (some ms) = ms := by
  refine ⟨rfl, ?_, ?_⟩
  · cases fuel with
    | zero => rfl
    | succ n => simp [runLoopAux, hc]
  · simp [sleepElapsed, Nat.min_eq_right (Nat.le_of_lt hms)]

/-- Concrete instance of `stop_idempotent_no_poll_after_cancel`. -/
theorem stop_idempotent_no_poll_after_cancel_witness :
    (fun _ : Nat => true) 0 = true ∧
    1000 < WORK_CHECK_FREQUENCY_MS ∧
    (stop (stop ⟨false⟩) = stop ⟨false⟩ ∧
     runLoopAux "t1" (fun _ => ⟨[], 0, false⟩) (fun _ => true) 3 0 = [] ∧
     sleepElapsed WORK_CHECK_FREQUENCY_MS (some 1000) = 1000) :=
  ⟨rfl, by decide,
    stop_idempotent_no_poll_after_cancel ⟨false⟩ "t1"
      (fun _ => ⟨[], 0, false⟩) (fun _ => true) 3 0 rfl 1000 (by decide)⟩

/-- Claim C6: settings that fail schema validation make `start` fail to
its caller with `invalidSettings`, with the store untouched and the
control loop never launched. -/
theorem start_invalid_settings_rejected (taskId : String) (now : Int)
    (store : TaskStore) (upsertFails : Bool) (s : TaskSettingsV1)
    (hv : validateSettings s = false) :
    start taskId now store upsertFails s =
      { outcome := .error .invalidSettings, store := store,
        loopLaunched := false } := by
  simp [start, persistTask, hv]

/-- Concrete instance of `start_invalid_settings_rejected`: a
version-2 settings value is rejected. -/
theorem start_invalid_settings_rejected_witness :
    validateSettings { version := 2, initialDelayDuration := none } = false ∧
    start "t1" 0 [] false { version := 2, initialDelayDuration := none } =
      { outcome := .error .invalidSettings, store := [],
        loopLaunched := false } :=
  ⟨rfl, start_invalid_settings_rejected "t1" 0 [] false _ rfl⟩

/-- Claim C2: when a record for the id already exists, `start` merges
only `settings_json`; the record keeps its `next_run_start_at` and
`current_run_ticket`. -/
theorem start_existing_preserves_schedule (taskId : String) (now : Int)
    (store : TaskStore) (s : TaskSettingsV1) (r : DbTasksRow)
    (hr : findRow store taskId = some r) (hv : validateSettings s = true) :
    (start taskId now store false s).outcome = .ok () ∧
    findRow (start taskId now store false s).store taskId =
      some { r with settings_json := encodeSettings s } := by
  have hr2 : store.find? (fun x => x.id == taskId) = some r := hr
  have hp : (r.id == taskId) = true :=
    List.find?_some (p := fun x : DbTasksRow => x.id == taskId) (a := r) hr2
  have hmem : r ∈ store := List.mem_of_find?_eq_some hr2
  have hany : (store.any fun x => x.id == taskId) = true :=
    List.any_eq_true.mpr ⟨r, hmem, hp⟩
  refine ⟨by simp [start, persistTask, hv], ?_⟩
  rw [start_store_merge taskId now store s hv hany, findRow_merge, hr]
  simp only [Option.map_some']
  rw [if_pos hp]

/-- Concrete instance of `start_existing_preserves_schedule`: the
pre-existing schedule (`next_run_start_at = 42`) and in-flight ticket
survive a redefinition. -/
theorem start_existing_preserves_schedule_witness :
    findRow [⟨"t1", .v1 ⟨1, none⟩, 42, some "tkt"⟩] "t1" =
      some ⟨"t1", .v1 ⟨1, none⟩, 42, some "tkt"⟩ ∧
    validateSettings ⟨1, some 7⟩ = true ∧
    ((start "t1" 99 [⟨"t1", .v1 ⟨1, none⟩, 42, some "tkt"⟩] false
        ⟨1, some 7⟩).outcome = .ok () ∧
     findRow (start "t1" 99 [⟨"t1", .v1 ⟨1, none⟩, 42, some "tkt"⟩] false
        ⟨1, some 7⟩).store "t1" =
      some { (⟨"t1", .v1 ⟨1, none⟩, 42, some "tkt"⟩ : DbTasksRow) with
        settings_json := encodeSettings ⟨1, some 7⟩ }) :=
  ⟨by decide, rfl,
    start_existing_preserves_schedule "t1" 99
      [⟨"t1", .v1 ⟨1, none⟩, 42, some "tkt"⟩] ⟨1, some 7⟩
      ⟨"t1", .v1 ⟨1, none⟩, 42, some "tkt"⟩ (by decide) rfl⟩

/-- Claim C7: for a fresh id, `start` inserts a record with
`next_run_start_at = now + initialDelayDuration` (or `now` when the
delay is absent) and a null ticket. -/
theorem start_new_task_initial_schedule (taskId : String) (now : Int)
    (store : TaskStore) (s : TaskSettingsV1)
    (hnew : findRow store taskId = none) (hv : validateSettings s = true) :
    ∃ row, findRow (start taskId now store false s).store taskId = some row ∧
      row.settings_json = encodeSettings s ∧
      row.current_run_ticket = none ∧
      (∀ d, s.initialDelayDuration = some d → row.next_run_start_at = now + d) ∧
      (s.initialDelayDuration = none → row.next_run_start_at = now) := by
  have hnone : ∀ x ∈ store, ¬(x.id == taskId) = true := fun x hx =>
    List.find?_eq_none.mp hnew x hx
  have hany : (store.any fun x => x.id == taskId) = false :=
    List.any_eq_false.mpr hnone
  have hstore : (start taskId now store false s).store =
      store ++ [{ id := taskId
                  settings_json := encodeSettings s
                  next_run_start_at := nowPlus s.initialDelayDuration now
                  current_run_ticket := none }] := by
    simp [start, persistTask, hv, upsertTask, hany]
  refine ⟨{ id := taskId
            settings_json := encodeSettings s
            next_run_start_at := nowPlus s.initialDelayDuration now
            current_run_ticket := none }, ?_, rfl, rfl, ?_, ?_⟩
  · rw [hstore]
    unfold findRow at hnew ⊢
    rw [List.find?_append, hnew]
    simp
  · intro d hd
    simp [nowPlus, hd]
  · intro h
    simp [nowPlus, h]

/-- Concrete instance of `start_new_task_initial_schedule`: a fresh
task with a 5 ms initial delay starting at time 100. -/
theorem start_new_task_initial_schedule_witness :
    findRow [] "t1" = none ∧ validateSettings ⟨1, some 5⟩ = true ∧
    (∃ row,
      findRow (start "t1" 100 [] false ⟨1, some 5⟩).store "t1" = some row ∧
      row.settings_json = encodeSettings ⟨1, some 5⟩ ∧
      row.current_run_ticket = none ∧
      (∀ d, (⟨1, some 5⟩ : TaskSettingsV1).initialDelayDuration = some d →
        row.next_run_start_at = 100 + d) ∧
      ((⟨1, some 5⟩ : TaskSettingsV1).initialDelayDuration = none →
        row.next_run_start_at = 100)) :=
  ⟨rfl, rfl, start_new_task_initial_schedule "t1" 100 [] ⟨1, some 5⟩ rfl rfl⟩

/-- Claim C8: for a fresh id, calling `start` twice with identical
settings leaves exactly the store that a single call leaves. -/
theorem start_twice_idempotent_new_task (taskId : String) (now now2 : Int)
    (store : TaskStore) (s : TaskSettingsV1)
    (hnew : findRow store taskId = none) (hv : validateSettings s = true) :
    (start taskId now2 (start taskId now store false s).store false s).store =
      (start taskId now store false s).store := by
  have hnone : ∀ x ∈ store, ¬(x.id == taskId) = true := fun x hx =>
    List.find?_eq_none.mp hnew x hx
  have hany : (store.any fun x => x.id == taskId) = false :=
    List.any_eq_false.mpr hnone
  set row : DbTasksRow := { id := taskId
                            settings_json := encodeSettings s
                            next_run_start_at := nowPlus s.initialDelayDuration now
                            current_run_ticket := none } with hrow
  have hstore1 : (start taskId now store false s).store = store ++ [row] := by
    simp [start, persistTask, hv, upsertTask, hany, hrow]
  have hany2 : ((store ++ [row]).any fun x => x.id == taskId) = true := by
    simp [hrow]
  have hmap : ((store ++ [row]).map fun x =>
      if x.id == taskId then { x with settings_json := encodeSettings s }
      else x) = store ++ [row] := by
    apply map_eq_self_of_fixes
    intro x hx
    rcases List.mem_append.mp hx with hx | hx
    · have hfalse : (x.id == taskId) = false := by
        simpa using hnone x hx
      simp [hfalse]
    · have hx2 : x = row := by simpa using hx
      subst hx2
      simp [hrow]
  rw [hstore1, start_store_merge taskId now2 (store ++ [row]) s hv hany2]
  exact hmap

/-- Claim C3 fails as stated: in a store state where the task's
`settings_json` is unparsable but the row is not yet eligible
(`next_run_start_at = 10`, polled at `now = 0`), the poll step yields
`not ready yet`, not `abort`. -/
theorem unparsable_settings_not_always_abort :
    (∃ r, findRow c3Store "t1" = some r ∧ parseSettings r.settings_json = none) ∧
    (runOnce "t1" c3Store 0 false).result = .notReadyYet ∧
    RunResult.notReadyYet ≠ RunResult.abort :=
  ⟨⟨{ id := "t1"
      settings_json := .malformed "junk"
      next_run_start_at := 10
      current_run_ticket := none }, rfl, rfl⟩, by decide, by decide⟩

/-- Claim C3, amended with the eligibility the spec's scenario assumes:
when the store read succeeds and the first row matching the readiness
filter carries settings that fail to parse or validate, the step yields
`abort` with an informational log, and the loop terminates right there
— the trace of that iteration is a single poll, with no further sleep
or poll, for every amount of fuel.  (No error reaches any caller: in
the embedding every loop failure is a value, as `start` attaches the
only handler to the loop's promise and merely logs.) -/
theorem unparsable_settings_abort_stops_loop (taskId : String)
    (store : TaskStore) (now : Int) (r : DbTasksRow)
    (env : Nat → PollEnv) (cancelled : Nat → Bool) (fuel i : Nat)
    (hr : (eligibleRows taskId store now).head? = some r)
    (hp : parseSettings r.settings_json = none)
    (hc : cancelled i = false)
    (henv : env i = ⟨store, now, false⟩) :
    (runOnce taskId store now false).result = .abort ∧
    (runOnce taskId store now false).logs = [.info] ∧
    runLoopAux taskId env cancelled (fuel + 1) i = [.poll] := by
  have hfind : findReadyTask taskId store now false = (.abort, [.info]) := by
    simp [findReadyTask, hr, hp]
  refine ⟨by simp [runOnce, hfind], by simp [runOnce, hfind], ?_⟩
  simp [runLoopAux, hc, henv, runOnce, hfind]

/-- Concrete instance of `unparsable_settings_abort_stops_loop`: the
row is due, unclaimed, and carries an unparsable payload. -/
theorem unparsable_settings_abort_stops_loop_witness :
    (eligibleRows "t1" [⟨"t1", .malformed "junk", -1, none⟩] 0).head? =
      some ⟨"t1", .malformed "junk", -1, none⟩ ∧
    parseSettings (SettingsJson.malformed "junk") = none ∧
    (fun _ : Nat => false) 0 = false ∧
    ((runOnce "t1" [⟨"t1", .malformed "junk", -1, none⟩] 0 false).result =
        .abort ∧
     (runOnce "t1" [⟨"t1", .malformed "junk", -1, none⟩] 0 false).logs =
        [.info] ∧
     runLoopAux "t1" (fun _ => ⟨[⟨"t1", .malformed "junk", -1, none⟩], 0, false⟩)
        (fun _ => false) (2 + 1) 0 = [.poll]) :=
  ⟨by decide, rfl, rfl,
    unparsable_settings_abort_stops_loop "t1"
      [⟨"t1", .malformed "junk", -1, none⟩] 0
      ⟨"t1", .malformed "junk", -1, none⟩
      (fun _ => ⟨[⟨"t1", .malformed "junk", -1, none⟩], 0, false⟩)
      (fun _ => false) 2 0 (by decide) rfl rfl rfl⟩

/-- Claim C4: a failing store read is caught and logged as a warning,
the step yields `not ready yet`, and the loop goes on: it sleeps the
poll interval and begins another poll instead of terminating. -/
theorem store_read_failure_not_ready_loop_continues (taskId : String)
    (store : TaskStore) (now : Int) (env : Nat → PollEnv)
    (cancelled : Nat → Bool) (fuel i : Nat)
    (henv : env i = ⟨store, now, true⟩)
    (hc : cancelled i = false) (hc2 : cancelled (i + 1) = false) :
    (runOnce taskId store now true).result = .notReadyYet ∧
    (runOnce taskId store now true).logs = [.warn] ∧
    ∃ rest, runLoopAux taskId env cancelled (fuel + 2) i =
      .poll :: .sleep :: .poll :: rest := by
  have h1 : (runOnce taskId store now true).result = .notReadyYet := by
    simp [runOnce, findReadyTask]
  refine ⟨h1, by simp [runOnce, findReadyTask], ?_⟩
  obtain ⟨rest, hrest⟩ := runLoopAux_head taskId env cancelled fuel (i + 1) hc2
  refine ⟨rest, ?_⟩
  have hstep : runLoopAux taskId env cancelled (fuel + 2) i =
      .poll :: .sleep :: runLoopAux taskId env cancelled (fuel + 1) (i + 1) := by
    simp [runLoopAux, hc, henv, h1]
  rw [hstep, hrest]

/-- Concrete instance of `store_read_failure_not_ready_loop_continues`. -/
theorem store_read_failure_not_ready_loop_continues_witness :
    (fun _ : Nat => PollEnv.mk [] 0 true) 0 = PollEnv.mk [] 0 true ∧
    (fun _ : Nat => false) 0 = false ∧
    ((runOnce "t1" [] 0 true).result = .notReadyYet ∧
     (runOnce "t1" [] 0 true).logs = [.warn] ∧
     ∃ rest, runLoopAux "t1" (fun _ => PollEnv.mk [] 0 true) (fun _ => false)
        (1 + 2) 0 = .poll :: .sleep :: .poll :: rest) :=
  ⟨rfl, rfl,
    store_read_failure_not_ready_loop_continues "t1" [] 0
      (fun _ => PollEnv.mk [] 0 true) (fun _ => false) 1 0 rfl rfl rfl⟩

/-- Concrete instance of `start_twice_idempotent_new_task`. -/
theorem start_twice_idempotent_new_task_witness :
    findRow [] "t1" = none ∧ validateSettings ⟨1, none⟩ = true ∧
    (start "t1" 7 (start "t1" 3 [] false ⟨1, none⟩).store false
        ⟨1, none⟩).store =
      (start "t1" 3 [] false ⟨1, none⟩).store :=
  ⟨rfl, rfl, start_twice_idempotent_new_task "t1" 3 7 [] ⟨1, none⟩ rfl rfl⟩
